import Mathlib

/-!
Shallow embedding of the pod-lifecycle reaction engine of the `shp build run`
sub-command (src/pkg/shp/cmd/build/run.go): the `tailLogs`, `onEvent`, `stop`
and `Run` methods of `RunCommand`, together with the small slices of the
Kubernetes and Shipwright data model they read (pod phase, container names,
status conditions, deletion markers, the re-fetched BuildRun).

Modelling conventions:
- Go strings are Lean `String`s; `fmt.Sprintf` on these fixed templates is
  string concatenation (no format verb appears in any argument position that
  the templates fill with user data containing verbs is abstracted away:
  `fmt.Errorf(c.Message)` is modelled as an error carrying `c.Message`).
- A Go `error` result is `Option String` (`none` = nil error); a fallible
  call is `Except String α`.
- The `tailLogsStarted map[string]bool` registry is a `List String` used only
  through membership (every inserted value is `true` in the source, so the
  boolean carries no information).
- Side effects of one handler invocation (writes to the output stream, calls
  to `logTail.Start`, calls to `stop`) are collected in an explicit result
  record.  The 3-second grace sleep in the Running branch has no effect on
  any observable state and is not modelled.
-/

namespace ShpBuildRun

/-- A pod status condition: `corev1.PodCondition` restricted to the fields the
code reads (`Type`, `Status`, `Message`). -/
structure PodCondition where
  ctype : String
  status : String
  message : String
deriving Repr, DecidableEq

/-- A pod, restricted to the fields `onEvent`/`tailLogs` read: metadata name
and namespace, the deletion timestamp, the declared init-container and
container name lists, the status phase and the status conditions. -/
structure Pod where
  name : String
  ns : String
  deletionTimestamp : Option String
  initContainers : List String
  containers : List String
  phase : String
  conditions : List PodCondition
deriving Repr, DecidableEq

/-- The re-fetched BuildRun, restricted to the fields the Failed branch reads:
its name, the `IsCanceled()` predicate and the deletion timestamp. -/
structure BuildRun where
  name : String
  isCanceled : Bool
  deletionTimestamp : Option String
deriving Repr, DecidableEq

/-- `corev1.PodRunning` -/
def podRunning : String := "Running"
/-- `corev1.PodFailed` -/
def podFailed : String := "Failed"
/-- `corev1.PodSucceeded` -/
def podSucceeded : String := "Succeeded"
/-- `corev1.PodInitialized` condition type -/
def condInitialized : String := "Initialized"
/-- `corev1.ContainersReady` condition type -/
def condContainersReady : String := "ContainersReady"
/-- `corev1.ConditionUnknown` condition status -/
def conditionUnknown : String := "Unknown"

/-- `fmt.Sprintf("BuildRun '%s' has been canceled.\n", br.Name)` -/
def canceledMsg (n : String) : String :=
  "BuildRun '" ++ n ++ "' has been canceled.\n"

/-- `fmt.Sprintf("BuildRun '%s' has been deleted.\n", br.Name)` -/
def brDeletedMsg (n : String) : String :=
  "BuildRun '" ++ n ++ "' has been deleted.\n"

/-- `fmt.Sprintf("Pod '%s' has been deleted.\n", pod.GetName())` -/
def podDeletedMsg (n : String) : String :=
  "Pod '" ++ n ++ "' has been deleted.\n"

/-- `fmt.Sprintf("Pod '%s' has failed!\n", pod.GetName())` -/
def podFailedMsg (n : String) : String :=
  "Pod '" ++ n ++ "' has failed!\n"

/-- `fmt.Errorf("build pod '%s' has failed", pod.GetName())` -/
def podFailedErr (n : String) : String :=
  "build pod '" ++ n ++ "' has failed"

/-- `fmt.Fprintf(out, "Pod '%s' has succeeded!\n", pod.GetName())` -/
def succeededMsg (n : String) : String :=
  "Pod '" ++ n ++ "' has succeeded!\n"

/-- `fmt.Fprintf(out, "Pod '%s' is in state %q...\n", name, phase)`; `%q` on a
phase string (plain ASCII letters) wraps it in double quotes. -/
def stateMsg (n ph : String) : String :=
  "Pod '" ++ n ++ "' is in state \"" ++ ph ++ "\"...\n"

/-- The loop body of `tailLogs`: walk the combined container-name list; a name
already in the registry is skipped, otherwise it is recorded in the registry
and a `logTail.Start(namespace, podName, name)` request is issued. Returns the
final registry and the start requests in issue order. -/
def tailLoop (ns pn : String) (reg : List String) :
    List String → List String × List (String × String × String)
  | [] => (reg, [])
  | c :: rest =>
    if c ∈ reg then
      tailLoop ns pn reg rest
    else
      let r := tailLoop ns pn (c :: reg) rest
      (r.1, (ns, pn, c) :: r.2)

/-- `RunCommand.tailLogs`: `containers := append(pod.Spec.InitContainers,
pod.Spec.Containers...)`, then the registry-guarded start loop. -/
def tailLogs (reg : List String) (pod : Pod) :
    List String × List (String × String × String) :=
  tailLoop pod.ns pod.name reg (pod.initContainers ++ pod.containers)

/-- Observable outcome of one `onEvent` invocation. `stoppedTail` and
`stoppedWatcher` record whether `stop()` ran (`stop` calls `logTail.Stop()`
and `pw.Stop()`, in that order, so the two are set together). `ret` is the
handler's returned error (`none` = nil). -/
structure EventResult where
  registry : List String
  emitted : List String
  tailStarts : List (String × String × String)
  stoppedTail : Bool
  stoppedWatcher : Bool
  ret : Option String
deriving Repr, DecidableEq

/-- The condition loop of the default branch of `onEvent`: for the first
condition whose type is `Initialized` or `ContainersReady` and whose status is
`Unknown`, return an error carrying that condition's message. -/
def condErr : List PodCondition → Option String
  | [] => none
  | c :: rest =>
    if (c.ctype = condInitialized ∨ c.ctype = condContainersReady) ∧
        c.status = conditionUnknown then
      some c.message
    else
      condErr rest

/-- `RunCommand.onEvent`.  `reg` is the `tailLogsStarted` registry on entry;
`fetch` is the result of the `BuildRuns(...).Get` re-fetch performed by the
Failed branch (it is only consulted there).  The body is the phase switch of
the source, guarded by `watchLock` (the lock is modelled at the `Run` level;
`onEvent`'s body itself is sequential). -/
def onEvent (reg : List String) (fetch : Except String BuildRun) (pod : Pod) :
    EventResult :=
  if pod.phase = podRunning then
    let r := tailLogs reg pod
    { registry := r.1, emitted := [], tailStarts := r.2,
      stoppedTail := false, stoppedWatcher := false, ret := none }
  else if pod.phase = podFailed then
    match fetch with
    | Except.ok br =>
      if br.isCanceled then
        { registry := reg, emitted := [canceledMsg br.name], tailStarts := [],
          stoppedTail := true, stoppedWatcher := true, ret := none }
      else if br.deletionTimestamp.isSome then
        { registry := reg, emitted := [brDeletedMsg br.name], tailStarts := [],
          stoppedTail := true, stoppedWatcher := true, ret := none }
      else if pod.deletionTimestamp.isSome then
        { registry := reg, emitted := [podDeletedMsg pod.name], tailStarts := [],
          stoppedTail := true, stoppedWatcher := true, ret := none }
      else
        { registry := reg, emitted := [podFailedMsg pod.name], tailStarts := [],
          stoppedTail := true, stoppedWatcher := true,
          ret := some (podFailedErr pod.name) }
    | Except.error e =>
      if pod.deletionTimestamp.isSome then
        { registry := reg, emitted := [podDeletedMsg pod.name], tailStarts := [],
          stoppedTail := true, stoppedWatcher := true, ret := some e }
      else
        { registry := reg, emitted := [podFailedMsg pod.name], tailStarts := [],
          stoppedTail := true, stoppedWatcher := true,
          ret := some (podFailedErr pod.name) }
  else if pod.phase = podSucceeded then
    { registry := reg, emitted := [succeededMsg pod.name], tailStarts := [],
      stoppedTail := true, stoppedWatcher := true, ret := none }
  else
    { registry := reg, emitted := [stateMsg pod.name pod.phase], tailStarts := [],
      stoppedTail := false, stoppedWatcher := false, ret := condErr pod.conditions }

/-- A monitoring session: a sequence of `onEvent` invocations threaded through
the `tailLogsStarted` registry.  Each event carries the pod snapshot delivered
by the watcher and the BuildRun re-fetch result the Failed branch would see.
Returns the final registry and all tail-start requests in issue order. -/
def session (reg : List String) :
    List (Except String BuildRun × Pod) →
    List String × List (String × String × String)
  | [] => (reg, [])
  | ev :: rest =>
    let r := onEvent reg ev.1 ev.2
    let s := session r.registry rest
    (s.1, r.tailStarts ++ s.2)

/-- The external inputs `Run` consumes: the results of the fallible calls it
makes, in program order, and the `follow` flag.  `params.ShipwrightClientSet()`
is called twice in the source (before `Create` and after the follow check);
the two results are modelled separately. -/
structure RunInputs where
  shpClientset1 : Except String Unit
  createResult : Except String String
  follow : Bool
  kClientset : Except String Unit
  shpClientset2 : Except String Unit
  podWatcher : Except String Unit
  watchResult : Option String
deriving Repr

/-- The return path `Run` takes. -/
inductive RunExitPath where
  | errShpClientset1
  | errCreate
  | noFollow
  | errKClientset
  | errShpClientset2
  | errPodWatcher
  | watchReturn
deriving Repr, DecidableEq

/-- Observable outcome of one `Run` invocation: which return statement was
reached, whether `watchLock` was still held at that return, the returned
error, and the lines written to the output stream. -/
structure RunResult where
  exitPath : RunExitPath
  lockHeld : Bool
  ret : Option String
  emitted : List String
deriving Repr, DecidableEq

/-- `fmt.Fprintf(out, "BuildRun created %q for build %q\n", br.GetName(),
r.buildName)`; `%q` wraps each name in double quotes. -/
def createdMsg (brName buildName : String) : String :=
  "BuildRun created \"" ++ brName ++ "\" for build \"" ++ buildName ++ "\"\n"

/-- `RunCommand.Run`: acquires `watchLock` first, then performs the fallible
setup steps in program order.  Every `return err` before the final
`watchLock.Unlock()` — and the `!r.follow` early return — leaves the lock
held; the lock is released only on the single path that reaches the blocking
`r.pw.Start()` call. -/
def Run (buildName : String) (i : RunInputs) : RunResult :=
  match i.shpClientset1 with
  | Except.error e =>
    { exitPath := RunExitPath.errShpClientset1, lockHeld := true,
      ret := some e, emitted := [] }
  | Except.ok _ =>
    match i.createResult with
    | Except.error e =>
      { exitPath := RunExitPath.errCreate, lockHeld := true,
        ret := some e, emitted := [] }
    | Except.ok brName =>
      if !i.follow then
        { exitPath := RunExitPath.noFollow, lockHeld := true,
          ret := none, emitted := [createdMsg brName buildName] }
      else
        match i.kClientset with
        | Except.error e =>
          { exitPath := RunExitPath.errKClientset, lockHeld := true,
            ret := some e, emitted := [] }
        | Except.ok _ =>
          match i.shpClientset2 with
          | Except.error e =>
            { exitPath := RunExitPath.errShpClientset2, lockHeld := true,
              ret := some e, emitted := [] }
          | Except.ok _ =>
            match i.podWatcher with
            | Except.error e =>
              { exitPath := RunExitPath.errPodWatcher, lockHeld := true,
                ret := some e, emitted := [] }
            | Except.ok _ =>
              { exitPath := RunExitPath.watchReturn, lockHeld := false,
                ret := i.watchResult, emitted := [] }

/-- One acquisition step of a non-reentrant `sync.Mutex` with a single owner:
acquiring a free lock succeeds, acquiring a held lock blocks (there is no
other goroutine left to release it once `Run` has returned), modelled as
`none`. -/
def mutexAcquire (held : Bool) : Option Bool :=
  if held then none else some true

/-- The three terminal reasons a Failed-phase event can be reported with. -/
inductive TerminalOutcome where
  | canceled
  | deleted
  | failedGeneric
deriving Repr, DecidableEq

/-- Spec-side definition, transcribed from the claimed precedence wording (not
from the code): if the re-fetched BuildRun is retrievable and canceled, the
outcome is canceled; otherwise, if a deletion marker is present on the
re-fetched BuildRun or on the observed pod, the outcome is deleted; otherwise
the outcome is the generic pod-failed one.  Compared against `onEvent`'s
Failed branch. -/
def claimOutcome (fetch : Except String BuildRun) (pod : Pod) : TerminalOutcome :=
  match fetch with
  | Except.ok br =>
    if br.isCanceled then TerminalOutcome.canceled
    else if br.deletionTimestamp.isSome ∨ pod.deletionTimestamp.isSome then
      TerminalOutcome.deleted
    else TerminalOutcome.failedGeneric
  | Except.error _ =>
    if pod.deletionTimestamp.isSome then TerminalOutcome.deleted
    else TerminalOutcome.failedGeneric

/-! ### Helper lemmas about the tail-start loop -/

theorem tailLoop_fst_mem (ns pn : String) (cs : List String) :
    ∀ reg x, x ∈ (tailLoop ns pn reg cs).1 ↔ x ∈ reg ∨ x ∈ cs := by
  induction cs with
  | nil => intro reg x; simp [tailLoop]
  | cons c rest ih =>
    intro reg x
    by_cases hc : c ∈ reg
    · simp only [tailLoop, if_pos hc]
      rw [ih]
      constructor
      · rintro (h | h)
        · exact Or.inl h
        · exact Or.inr (List.mem_cons_of_mem _ h)
      · rintro (h | h)
        · exact Or.inl h
        · rcases List.mem_cons.mp h with rfl | h
          · exact Or.inl hc
          · exact Or.inr h
    · simp only [tailLoop, if_neg hc]
      rw [ih]
      simp only [List.mem_cons]
      tauto

theorem tailLoop_snd_fields (ns pn : String) (cs : List String) :
    ∀ reg t, t ∈ (tailLoop ns pn reg cs).2 → t.1 = ns ∧ t.2.1 = pn := by
  induction cs with
  | nil => intro reg t h; simp [tailLoop] at h
  | cons c rest ih =>
    intro reg t h
    by_cases hc : c ∈ reg
    · rw [tailLoop, if_pos hc] at h
      exact ih reg t h
    · rw [tailLoop, if_neg hc] at h
      simp only [List.mem_cons] at h
      rcases h with rfl | h
      · exact ⟨rfl, rfl⟩
      · exact ih (c :: reg) t h

theorem tailLoop_names_sublist (ns pn : String) (cs : List String) :
    ∀ reg, List.Sublist ((tailLoop ns pn reg cs).2.map (fun t => t.2.2)) cs := by
  induction cs with
  | nil => intro reg; simp [tailLoop]
  | cons c rest ih =>
    intro reg
    by_cases hc : c ∈ reg
    · rw [tailLoop, if_pos hc]
      exact List.Sublist.cons c (ih reg)
    · rw [tailLoop, if_neg hc]
      simpa using List.Sublist.cons₂ c (ih (c :: reg))

theorem tailLoop_names_fresh (ns pn : String) (cs : List String) :
    ∀ reg t, t ∈ (tailLoop ns pn reg cs).2 → t.2.2 ∉ reg := by
  induction cs with
  | nil => intro reg t h; simp [tailLoop] at h
  | cons c rest ih =>
    intro reg t h
    by_cases hc : c ∈ reg
    · rw [tailLoop, if_pos hc] at h
      exact ih reg t h
    · rw [tailLoop, if_neg hc] at h
      simp only [List.mem_cons] at h
      rcases h with rfl | h
      · exact hc
      · intro hx
        exact ih (c :: reg) t h (List.mem_cons_of_mem _ hx)

theorem tailLoop_names_nodup (ns pn : String) (cs : List String) :
    ∀ reg, List.Nodup ((tailLoop ns pn reg cs).2.map (fun t => t.2.2)) := by
  induction cs with
  | nil => intro reg; simp [tailLoop]
  | cons c rest ih =>
    intro reg
    by_cases hc : c ∈ reg
    · rw [tailLoop, if_pos hc]
      exact ih reg
    · rw [tailLoop, if_neg hc]
      simp only [List.map_cons, List.nodup_cons]
      refine ⟨?_, ih (c :: reg)⟩
      intro hmem
      rcases List.mem_map.mp hmem with ⟨t, ht, hname⟩
      exact tailLoop_names_fresh ns pn rest (c :: reg) t ht
        (hname ▸ List.mem_cons_self c reg)

theorem tailLoop_covers (ns pn : String) (cs : List String) :
    ∀ reg x, x ∈ cs → x ∉ reg → x ∈ (tailLoop ns pn reg cs).2.map (fun t => t.2.2) := by
  induction cs with
  | nil => intro reg x h; simp at h
  | cons c rest ih =>
    intro reg x hx hreg
    by_cases hc : c ∈ reg
    · rw [tailLoop, if_pos hc]
      rcases List.mem_cons.mp hx with rfl | hx
      · exact absurd hc hreg
      · exact ih reg x hx hreg
    · rw [tailLoop, if_neg hc]
      simp only [List.map_cons, List.mem_cons]
      rcases List.mem_cons.mp hx with rfl | hx
      · exact Or.inl rfl
      · by_cases hxc : x = c
        · exact Or.inl hxc
        · exact Or.inr (ih (c :: reg) x hx (by
            simp only [List.mem_cons]
            rintro (h | h)
            · exact hxc h
            · exact hreg h))

theorem tailLoop_snd_nil_of_registered (ns pn : String) (cs : List String) :
    ∀ reg, (∀ x ∈ cs, x ∈ reg) → (tailLoop ns pn reg cs).2 = [] := by
  induction cs with
  | nil => intro reg _; simp [tailLoop]
  | cons c rest ih =>
    intro reg hall
    rw [tailLoop, if_pos (hall c (List.mem_cons_self c rest))]
    exact ih reg (fun x hx => hall x (List.mem_cons_of_mem _ hx))

/-! ### Shape lemmas about `onEvent` and `session` -/

theorem podFailed_ne_podRunning : ¬ podFailed = podRunning := by decide

theorem podSucceeded_ne_podRunning : ¬ podSucceeded = podRunning := by decide

theorem podSucceeded_ne_podFailed : ¬ podSucceeded = podFailed := by decide

theorem onEvent_registry_eq (reg : List String) (f : Except String BuildRun) (p : Pod) :
    (onEvent reg f p).registry =
      if p.phase = podRunning then (tailLogs reg p).1 else reg := by
  by_cases h1 : p.phase = podRunning
  · simp [onEvent, h1]
  · by_cases h2 : p.phase = podFailed
    · cases f <;> simp [onEvent, h1, h2] <;> split_ifs <;> rfl
    · by_cases h3 : p.phase = podSucceeded <;>
        simp [onEvent, h1, h2, h3, podSucceeded_ne_podRunning, podSucceeded_ne_podFailed]

theorem onEvent_tailStarts_eq (reg : List String) (f : Except String BuildRun) (p : Pod) :
    (onEvent reg f p).tailStarts =
      if p.phase = podRunning then (tailLogs reg p).2 else [] := by
  by_cases h1 : p.phase = podRunning
  · simp [onEvent, h1]
  · by_cases h2 : p.phase = podFailed
    · cases f <;> simp [onEvent, h1, h2] <;> split_ifs <;> rfl
    · by_cases h3 : p.phase = podSucceeded <;>
        simp [onEvent, h1, h2, h3, podSucceeded_ne_podRunning, podSucceeded_ne_podFailed]

theorem onEvent_registry_mono (reg : List String) (f : Except String BuildRun)
    (p : Pod) : ∀ x ∈ reg, x ∈ (onEvent reg f p).registry := by
  intro x hx
  rw [onEvent_registry_eq]
  split
  · exact (tailLoop_fst_mem _ _ _ _ _).mpr (Or.inl hx)
  · exact hx

theorem onEvent_starts_fresh (reg : List String) (f : Except String BuildRun)
    (p : Pod) : ∀ t ∈ (onEvent reg f p).tailStarts, t.2.2 ∉ reg := by
  intro t ht
  rw [onEvent_tailStarts_eq] at ht
  revert ht
  split
  · exact fun ht => tailLoop_names_fresh _ _ _ _ _ ht
  · intro ht; simp at ht

theorem onEvent_starts_in_registry (reg : List String) (f : Except String BuildRun)
    (p : Pod) : ∀ t ∈ (onEvent reg f p).tailStarts, t.2.2 ∈ (onEvent reg f p).registry := by
  intro t ht
  rw [onEvent_tailStarts_eq] at ht
  rw [onEvent_registry_eq]
  revert ht
  split
  · intro ht
    have hsub := tailLoop_names_sublist p.ns p.name
      (p.initContainers ++ p.containers) reg
    have hmem : t.2.2 ∈
        (tailLoop p.ns p.name reg (p.initContainers ++ p.containers)).2.map
          (fun t => t.2.2) :=
      List.mem_map_of_mem (fun t => t.2.2) ht
    have : t.2.2 ∈ (p.initContainers ++ p.containers) := hsub.mem hmem
    exact (tailLoop_fst_mem _ _ _ _ _).mpr (Or.inr this)
  · intro ht; simp at ht

theorem onEvent_starts_nodup (reg : List String) (f : Except String BuildRun)
    (p : Pod) : List.Nodup ((onEvent reg f p).tailStarts.map fun t => t.2.2) := by
  rw [onEvent_tailStarts_eq]
  split
  · exact tailLoop_names_nodup _ _ _ _
  · simp

theorem session_cons (reg : List String) (ev : Except String BuildRun × Pod)
    (rest : List (Except String BuildRun × Pod)) :
    session reg (ev :: rest) =
      ((session (onEvent reg ev.1 ev.2).registry rest).1,
        (onEvent reg ev.1 ev.2).tailStarts ++
          (session (onEvent reg ev.1 ev.2).registry rest).2) := by
  simp [session]

theorem session_registry_mono (evs : List (Except String BuildRun × Pod)) :
    ∀ reg x, x ∈ reg → x ∈ (session reg evs).1 := by
  induction evs with
  | nil => intro reg x hx; simpa [session] using hx
  | cons ev rest ih =>
    intro reg x hx
    rw [session_cons]
    exact ih _ x (onEvent_registry_mono reg ev.1 ev.2 x hx)

theorem session_starts_fresh (evs : List (Except String BuildRun × Pod)) :
    ∀ reg t, t ∈ (session reg evs).2 → t.2.2 ∉ reg := by
  induction evs with
  | nil => intro reg t ht; simp [session] at ht
  | cons ev rest ih =>
    intro reg t ht
    rw [session_cons] at ht
    rcases List.mem_append.mp ht with h | h
    · exact onEvent_starts_fresh reg ev.1 ev.2 t h
    · intro hx
      exact ih _ t h (onEvent_registry_mono reg ev.1 ev.2 _ hx)

theorem session_starts_in_registry (evs : List (Except String BuildRun × Pod)) :
    ∀ reg t, t ∈ (session reg evs).2 → t.2.2 ∈ (session reg evs).1 := by
  induction evs with
  | nil => intro reg t ht; simp [session] at ht
  | cons ev rest ih =>
    intro reg t ht
    rw [session_cons] at ht ⊢
    rcases List.mem_append.mp ht with h | h
    · exact session_registry_mono rest _ _
        (onEvent_starts_in_registry reg ev.1 ev.2 t h)
    · exact ih _ t h

theorem session_starts_nodup (evs : List (Except String BuildRun × Pod)) :
    ∀ reg, List.Nodup ((session reg evs).2.map fun t => t.2.2) := by
  induction evs with
  | nil => intro reg; simp [session]
  | cons ev rest ih =>
    intro reg
    rw [session_cons]
    simp only [List.map_append]
    rw [List.nodup_append]
    refine ⟨onEvent_starts_nodup reg ev.1 ev.2, ih _, ?_⟩
    intro x hx₁ hx₂
    rcases List.mem_map.mp hx₁ with ⟨t₁, ht₁, rfl⟩
    rcases List.mem_map.mp hx₂ with ⟨t₂, ht₂, hn⟩
    have hin : t₁.2.2 ∈ (onEvent reg ev.1 ev.2).registry :=
      onEvent_starts_in_registry reg ev.1 ev.2 t₁ ht₁
    exact session_starts_fresh rest _ t₂ ht₂ (hn ▸ hin)

theorem condErr_eq_find (cs : List PodCondition) :
    condErr cs = (cs.find? fun c =>
      (c.ctype == condInitialized || c.ctype == condContainersReady) &&
        (c.status == conditionUnknown)).map PodCondition.message := by
  induction cs with
  | nil => rfl
  | cons c rest ih =>
    have hiff : (((c.ctype == condInitialized || c.ctype == condContainersReady) &&
        (c.status == conditionUnknown)) = true) ↔
        ((c.ctype = condInitialized ∨ c.ctype = condContainersReady) ∧
          c.status = conditionUnknown) := by
      simp only [Bool.and_eq_true, Bool.or_eq_true, beq_iff_eq]
    by_cases h : (c.ctype = condInitialized ∨ c.ctype = condContainersReady) ∧
        c.status = conditionUnknown
    · have hp : (fun c : PodCondition =>
          (c.ctype == condInitialized || c.ctype == condContainersReady) &&
            (c.status == conditionUnknown)) c = true := hiff.mpr h
      rw [condErr, if_pos h, List.find?_cons_of_pos rest hp]
      rfl
    · have hp : ¬ (fun c : PodCondition =>
          (c.ctype == condInitialized || c.ctype == condContainersReady) &&
            (c.status == conditionUnknown)) c = true := fun hb => h (hiff.mp hb)
      rw [condErr, if_neg h, List.find?_cons_of_neg rest hp]
      exact ih

/-! ### The claims -/

/-- C1: when `onEvent` sees a Failed-phase pod, the terminal reason follows
the claimed precedence — canceled (re-fetched BuildRun retrievable and
canceled), else deleted (deletion marker on the re-fetched BuildRun or on the
observed pod), else the generic pod-failed outcome — and for every Failed
event exactly one of the three messages is emitted and shutdown is
triggered. -/
theorem onEvent_failed_terminal_reason_precedence (reg : List String)
    (fetch : Except String BuildRun) (pod : Pod) (h : pod.phase = podFailed) :
    (onEvent reg fetch pod).emitted.length = 1 ∧
    (onEvent reg fetch pod).stoppedTail = true ∧
    (onEvent reg fetch pod).stoppedWatcher = true ∧
    (match claimOutcome fetch pod with
      | TerminalOutcome.canceled =>
          ∃ br, fetch = Except.ok br ∧
            (onEvent reg fetch pod).emitted = [canceledMsg br.name]
      | TerminalOutcome.deleted =>
          (∃ br, fetch = Except.ok br ∧
            (onEvent reg fetch pod).emitted = [brDeletedMsg br.name]) ∨
          (onEvent reg fetch pod).emitted = [podDeletedMsg pod.name]
      | TerminalOutcome.failedGeneric =>
          (onEvent reg fetch pod).emitted = [podFailedMsg pod.name]) := by
  cases fetch with
  | ok br =>
    by_cases hc : br.isCanceled = true
    · simp [onEvent, claimOutcome, h, podFailed_ne_podRunning, hc]
    · by_cases hd : br.deletionTimestamp.isSome = true
      · simp [onEvent, claimOutcome, h, podFailed_ne_podRunning, hc, hd]
      · by_cases hp : pod.deletionTimestamp.isSome = true <;>
          simp [onEvent, claimOutcome, h, podFailed_ne_podRunning, hc, hd, hp]
  | error e =>
    by_cases hp : pod.deletionTimestamp.isSome = true <;>
      simp [onEvent, claimOutcome, h, podFailed_ne_podRunning, hp]

theorem onEvent_failed_terminal_reason_precedence_witness :
    (onEvent [] (Except.ok { name := "br-1", isCanceled := true, deletionTimestamp := none })
        { name := "pod-1", ns := "ns-1", deletionTimestamp := none, initContainers := [],
          containers := [], phase := "Failed", conditions := [] }).emitted.length = 1 ∧
    (onEvent [] (Except.ok { name := "br-1", isCanceled := true, deletionTimestamp := none })
        { name := "pod-1", ns := "ns-1", deletionTimestamp := none, initContainers := [],
          containers := [], phase := "Failed", conditions := [] }).stoppedTail = true ∧
    (onEvent [] (Except.ok { name := "br-1", isCanceled := true, deletionTimestamp := none })
        { name := "pod-1", ns := "ns-1", deletionTimestamp := none, initContainers := [],
          containers := [], phase := "Failed", conditions := [] }).stoppedWatcher = true ∧
    (match claimOutcome
        (Except.ok { name := "br-1", isCanceled := true, deletionTimestamp := none })
        { name := "pod-1", ns := "ns-1", deletionTimestamp := none, initContainers := [],
          containers := [], phase := "Failed", conditions := [] } with
      | TerminalOutcome.canceled =>
          ∃ br, (Except.ok { name := "br-1", isCanceled := true, deletionTimestamp := none } :
              Except String BuildRun) = Except.ok br ∧
            (onEvent [] (Except.ok { name := "br-1", isCanceled := true, deletionTimestamp := none })
              { name := "pod-1", ns := "ns-1", deletionTimestamp := none, initContainers := [],
                containers := [], phase := "Failed", conditions := [] }).emitted = [canceledMsg br.name]
      | TerminalOutcome.deleted =>
          (∃ br, (Except.ok { name := "br-1", isCanceled := true, deletionTimestamp := none } :
              Except String BuildRun) = Except.ok br ∧
            (onEvent [] (Except.ok { name := "br-1", isCanceled := true, deletionTimestamp := none })
              { name := "pod-1", ns := "ns-1", deletionTimestamp := none, initContainers := [],
                containers := [], phase := "Failed", conditions := [] }).emitted = [brDeletedMsg br.name]) ∨
          (onEvent [] (Except.ok { name := "br-1", isCanceled := true, deletionTimestamp := none })
            { name := "pod-1", ns := "ns-1", deletionTimestamp := none, initContainers := [],
              containers := [], phase := "Failed", conditions := [] }).emitted = [podDeletedMsg "pod-1"]
      | TerminalOutcome.failedGeneric =>
          (onEvent [] (Except.ok { name := "br-1", isCanceled := true, deletionTimestamp := none })
            { name := "pod-1", ns := "ns-1", deletionTimestamp := none, initContainers := [],
              containers := [], phase := "Failed", conditions := [] }).emitted = [podFailedMsg "pod-1"]) :=
  onEvent_failed_terminal_reason_precedence [] _ _ rfl

/-- C2 counterexample: a Failed-phase pod carrying a deletion marker while the
BuildRun re-fetch fails.  The handler emits the deleted outcome, yet returns
the (non-nil) fetch error — the claim says this case returns nil. -/
theorem onEvent_failed_fetch_error_deleted_cex :
    (onEvent [] (Except.error "buildrun fetch failed")
      { name := "pod-1", ns := "ns-1", deletionTimestamp := some "2021-01-01T00:00:00Z",
        initContainers := [], containers := [], phase := "Failed",
        conditions := [] }).emitted = [podDeletedMsg "pod-1"] ∧
    (onEvent [] (Except.error "buildrun fetch failed")
      { name := "pod-1", ns := "ns-1", deletionTimestamp := some "2021-01-01T00:00:00Z",
        initContainers := [], containers := [], phase := "Failed",
        conditions := [] }).ret = some "buildrun fetch failed" ∧
    ¬ (onEvent [] (Except.error "buildrun fetch failed")
      { name := "pod-1", ns := "ns-1", deletionTimestamp := some "2021-01-01T00:00:00Z",
        initContainers := [], containers := [], phase := "Failed",
        conditions := [] }).ret = none := by
  refine ⟨rfl, rfl, ?_⟩
  intro hn
  exact Option.noConfusion ((rfl :
    (onEvent [] (Except.error "buildrun fetch failed")
      { name := "pod-1", ns := "ns-1", deletionTimestamp := some "2021-01-01T00:00:00Z",
        initContainers := [], containers := [], phase := "Failed",
        conditions := [] }).ret = some "buildrun fetch failed").symm.trans hn)

/-- C2 (amended): on a Failed-phase pod the handler returns nil exactly when
the BuildRun re-fetch succeeded and the BuildRun is canceled, the BuildRun
carries a deletion marker, or the observed pod carries a deletion marker; on a
re-fetch failure it returns the fetch error itself (even when the deleted
outcome was emitted from the pod's deletion marker); in the remaining case it
returns the generic pod-failed error. -/
theorem onEvent_failed_return_value (reg : List String)
    (fetch : Except String BuildRun) (pod : Pod) (h : pod.phase = podFailed) :
    ((onEvent reg fetch pod).ret = none ↔
      ∃ br, fetch = Except.ok br ∧
        (br.isCanceled = true ∨ br.deletionTimestamp.isSome = true ∨
          pod.deletionTimestamp.isSome = true)) ∧
    (∀ e, fetch = Except.error e →
      (onEvent reg fetch pod).ret =
        if pod.deletionTimestamp.isSome then some e
        else some (podFailedErr pod.name)) ∧
    (∀ br, fetch = Except.ok br → br.isCanceled = false →
      br.deletionTimestamp = none → pod.deletionTimestamp = none →
      (onEvent reg fetch pod).ret = some (podFailedErr pod.name)) := by
  cases fetch with
  | ok br =>
    by_cases hc : br.isCanceled = true
    · simp [onEvent, h, podFailed_ne_podRunning, hc]
    · by_cases hd : br.deletionTimestamp.isSome = true
      · simp [onEvent, h, podFailed_ne_podRunning, hc, hd]
        intro hbd
        rw [hbd] at hd
        simp at hd
      · by_cases hp : pod.deletionTimestamp.isSome = true
        · have hp' : ¬ pod.deletionTimestamp = none := by
            intro hx; rw [hx] at hp; simp at hp
          simp [onEvent, h, podFailed_ne_podRunning, hc, hd, hp, hp']
        · simp [onEvent, h, podFailed_ne_podRunning, hc, hd, hp]
  | error e =>
    by_cases hp : pod.deletionTimestamp.isSome = true <;>
      simp [onEvent, h, podFailed_ne_podRunning, hp]

theorem onEvent_failed_return_value_witness :
    ((onEvent [] (Except.ok { name := "br-1", isCanceled := true, deletionTimestamp := none })
        { name := "pod-1", ns := "ns-1", deletionTimestamp := none, initContainers := [],
          containers := [], phase := "Failed", conditions := [] }).ret = none ↔
      ∃ br, (Except.ok { name := "br-1", isCanceled := true, deletionTimestamp := none } :
          Except String BuildRun) = Except.ok br ∧
        (br.isCanceled = true ∨ br.deletionTimestamp.isSome = true ∨
          (none : Option String).isSome = true)) ∧
    (∀ e, (Except.ok { name := "br-1", isCanceled := true, deletionTimestamp := none } :
        Except String BuildRun) = Except.error e →
      (onEvent [] (Except.ok { name := "br-1", isCanceled := true, deletionTimestamp := none })
        { name := "pod-1", ns := "ns-1", deletionTimestamp := none, initContainers := [],
          containers := [], phase := "Failed", conditions := [] }).ret =
        if (none : Option String).isSome then some e else some (podFailedErr "pod-1")) ∧
    (∀ br, (Except.ok { name := "br-1", isCanceled := true, deletionTimestamp := none } :
        Except String BuildRun) = Except.ok br → br.isCanceled = false →
      br.deletionTimestamp = none → (none : Option String) = none →
      (onEvent [] (Except.ok { name := "br-1", isCanceled := true, deletionTimestamp := none })
        { name := "pod-1", ns := "ns-1", deletionTimestamp := none, initContainers := [],
          containers := [], phase := "Failed", conditions := [] }).ret =
        some (podFailedErr "pod-1")) :=
  onEvent_failed_return_value [] _ _ rfl

/-- C4: a Failed-phase pod whose re-fetched BuildRun is retrieved and reports
canceled makes the handler emit exactly the canceled message with the
BuildRun's name, trigger shutdown, and return nil. -/
theorem onEvent_failed_canceled (reg : List String) (br : BuildRun) (pod : Pod)
    (h : pod.phase = podFailed) (hc : br.isCanceled = true) :
    onEvent reg (Except.ok br) pod =
      { registry := reg, emitted := [canceledMsg br.name], tailStarts := [],
        stoppedTail := true, stoppedWatcher := true, ret := none } := by
  simp [onEvent, h, podFailed_ne_podRunning, hc]

theorem onEvent_failed_canceled_witness :
    onEvent [] (Except.ok { name := "br-1", isCanceled := true, deletionTimestamp := none })
        { name := "pod-1", ns := "ns-1", deletionTimestamp := none, initContainers := [],
          containers := [], phase := "Failed", conditions := [] } =
      { registry := [], emitted := [canceledMsg "br-1"], tailStarts := [],
        stoppedTail := true, stoppedWatcher := true, ret := none } :=
  onEvent_failed_canceled [] _ _ rfl rfl

/-- C5: a Failed-phase pod whose re-fetched BuildRun is retrieved, is not
canceled and carries no deletion marker, while the observed pod carries a
deletion marker, makes the handler emit the deleted message and return nil. -/
theorem onEvent_failed_pod_deletion_marker (reg : List String) (br : BuildRun)
    (pod : Pod) (h : pod.phase = podFailed) (hc : br.isCanceled = false)
    (hbd : br.deletionTimestamp = none) (hpd : pod.deletionTimestamp.isSome = true) :
    onEvent reg (Except.ok br) pod =
      { registry := reg, emitted := [podDeletedMsg pod.name], tailStarts := [],
        stoppedTail := true, stoppedWatcher := true, ret := none } := by
  simp [onEvent, h, podFailed_ne_podRunning, hc, hbd, hpd]

theorem onEvent_failed_pod_deletion_marker_witness :
    onEvent [] (Except.ok { name := "br-1", isCanceled := false, deletionTimestamp := none })
        { name := "pod-1", ns := "ns-1", deletionTimestamp := some "2021-01-01T00:00:00Z",
          initContainers := [], containers := [], phase := "Failed", conditions := [] } =
      { registry := [], emitted := [podDeletedMsg "pod-1"], tailStarts := [],
        stoppedTail := true, stoppedWatcher := true, ret := none } :=
  onEvent_failed_pod_deletion_marker [] _ _ rfl rfl rfl rfl

/-- C6: a Failed-phase pod whose re-fetched BuildRun is retrieved and is
neither canceled nor deletion-marked, while the observed pod carries no
deletion marker, makes the handler emit exactly the generic failure message,
trigger shutdown, and return a non-nil error. -/
theorem onEvent_failed_generic (reg : List String) (br : BuildRun) (pod : Pod)
    (h : pod.phase = podFailed) (hc : br.isCanceled = false)
    (hbd : br.deletionTimestamp = none) (hpd : pod.deletionTimestamp = none) :
    onEvent reg (Except.ok br) pod =
      { registry := reg, emitted := [podFailedMsg pod.name], tailStarts := [],
        stoppedTail := true, stoppedWatcher := true,
        ret := some (podFailedErr pod.name) } ∧
    ¬ (onEvent reg (Except.ok br) pod).ret = none := by
  constructor <;> simp [onEvent, h, podFailed_ne_podRunning, hc, hbd, hpd]

theorem onEvent_failed_generic_witness :
    (onEvent [] (Except.ok { name := "br-1", isCanceled := false, deletionTimestamp := none })
        { name := "pod-1", ns := "ns-1", deletionTimestamp := none, initContainers := [],
          containers := [], phase := "Failed", conditions := [] } =
      { registry := [], emitted := [podFailedMsg "pod-1"], tailStarts := [],
        stoppedTail := true, stoppedWatcher := true,
        ret := some (podFailedErr "pod-1") }) ∧
    ¬ (onEvent [] (Except.ok { name := "br-1", isCanceled := false, deletionTimestamp := none })
        { name := "pod-1", ns := "ns-1", deletionTimestamp := none, initContainers := [],
          containers := [], phase := "Failed", conditions := [] }).ret = none :=
  onEvent_failed_generic [] _ _ rfl rfl rfl rfl

/-- C8: a Succeeded-phase pod makes the handler emit exactly the success
message, trigger shutdown (stopping both the tail coordinator and the pod
watcher), and return nil. -/
theorem onEvent_succeeded (reg : List String) (fetch : Except String BuildRun)
    (pod : Pod) (h : pod.phase = podSucceeded) :
    onEvent reg fetch pod =
      { registry := reg, emitted := [succeededMsg pod.name], tailStarts := [],
        stoppedTail := true, stoppedWatcher := true, ret := none } := by
  simp [onEvent, h, podSucceeded_ne_podRunning, podSucceeded_ne_podFailed]

theorem onEvent_succeeded_witness :
    onEvent [] (Except.error "unused")
        { name := "pod-1", ns := "ns-1", deletionTimestamp := none, initContainers := [],
          containers := [], phase := "Succeeded", conditions := [] } =
      { registry := [], emitted := [succeededMsg "pod-1"], tailStarts := [],
        stoppedTail := true, stoppedWatcher := true, ret := none } :=
  onEvent_succeeded [] _ _ rfl

/-- C9: a pod in any phase other than Running, Failed or Succeeded makes the
handler emit the informational state line, perform no shutdown, and return an
error carrying the message of the first condition (in list order) of type
Initialized or ContainersReady whose status is Unknown — or nil when no such
condition exists. -/
theorem onEvent_other_phase (reg : List String) (fetch : Except String BuildRun)
    (pod : Pod) (h1 : ¬ pod.phase = podRunning) (h2 : ¬ pod.phase = podFailed)
    (h3 : ¬ pod.phase = podSucceeded) :
    onEvent reg fetch pod =
      { registry := reg, emitted := [stateMsg pod.name pod.phase], tailStarts := [],
        stoppedTail := false, stoppedWatcher := false,
        ret := (pod.conditions.find? fun c =>
          (c.ctype == condInitialized || c.ctype == condContainersReady) &&
            (c.status == conditionUnknown)).map PodCondition.message } := by
  simp [onEvent, h1, h2, h3, condErr_eq_find]

theorem onEvent_other_phase_witness :
    onEvent [] (Except.error "unused")
        { name := "pod-1", ns := "ns-1", deletionTimestamp := none, initContainers := [],
          containers := [], phase := "Pending",
          conditions := [{ ctype := "ContainersReady", status := "Unknown", message := "ImagePullBackOff" }] } =
      { registry := [], emitted := [stateMsg "pod-1" "Pending"], tailStarts := [],
        stoppedTail := false, stoppedWatcher := false,
        ret := some "ImagePullBackOff" } :=
  (onEvent_other_phase [] (Except.error "unused")
    { name := "pod-1", ns := "ns-1", deletionTimestamp := none, initContainers := [],
      containers := [], phase := "Pending",
      conditions := [{ ctype := "ContainersReady", status := "Unknown", message := "ImagePullBackOff" }] }
    (by decide) (by decide) (by decide)).trans (by rfl)

/-- C3: across a whole monitoring session (any sequence of events threaded
through the `tailLogsStarted` registry), each container name triggers a tail
start at most once, a name already present in the registry never re-triggers
a start, and names are never removed from the registry. -/
theorem session_tail_start_at_most_once (reg : List String)
    (evs : List (Except String BuildRun × Pod)) :
    List.Nodup ((session reg evs).2.map fun t => t.2.2) ∧
    (∀ x ∈ reg, x ∉ (session reg evs).2.map fun t => t.2.2) ∧
    (∀ x ∈ reg, x ∈ (session reg evs).1) := by
  refine ⟨session_starts_nodup evs reg, ?_, fun x hx => session_registry_mono evs reg x hx⟩
  intro x hx hmem
  rcases List.mem_map.mp hmem with ⟨t, ht, rfl⟩
  exact session_starts_fresh evs reg t ht hx

/-- C7: the tail-start requests of `tailLogs` form a subsequence of the
declared container order (all init-containers in declared order, then all
regular containers in declared order), each request targets the observed
pod's namespace and name with a container name not yet registered, every
unregistered declared name is started, no name is started twice, and a second
run on the same pod issues no starts. -/
theorem tailLogs_deterministic_order (reg : List String) (pod : Pod) :
    List.Sublist ((tailLogs reg pod).2.map fun t => t.2.2)
      (pod.initContainers ++ pod.containers) ∧
    (∀ t ∈ (tailLogs reg pod).2, t.1 = pod.ns ∧ t.2.1 = pod.name ∧ t.2.2 ∉ reg) ∧
    (∀ c ∈ pod.initContainers ++ pod.containers, c ∉ reg →
      c ∈ (tailLogs reg pod).2.map fun t => t.2.2) ∧
    List.Nodup ((tailLogs reg pod).2.map fun t => t.2.2) ∧
    (tailLogs (tailLogs reg pod).1 pod).2 = [] := by
  refine ⟨tailLoop_names_sublist _ _ _ _, ?_, ?_, tailLoop_names_nodup _ _ _ _, ?_⟩
  · intro t ht
    exact ⟨(tailLoop_snd_fields _ _ _ _ t ht).1, (tailLoop_snd_fields _ _ _ _ t ht).2,
      tailLoop_names_fresh _ _ _ _ t ht⟩
  · intro c hc hreg
    exact tailLoop_covers _ _ _ _ c hc hreg
  · apply tailLoop_snd_nil_of_registered
    intro x hx
    exact (tailLoop_fst_mem _ _ _ _ _).mpr (Or.inr hx)

/-- C10: `Run` returns with `watchLock` still held on every return path other
than the single one that reaches the blocking watch start (the clientset and
pod-watcher error returns and the follow=false early return), and a
subsequent acquisition of the still-held non-reentrant mutex blocks
forever. -/
theorem run_lock_discipline (buildName : String) (i : RunInputs) :
    ((Run buildName i).lockHeld = true ↔
      ¬ (Run buildName i).exitPath = RunExitPath.watchReturn) ∧
    ((Run buildName i).lockHeld = true →
      mutexAcquire (Run buildName i).lockHeld = none) := by
  obtain ⟨s1, cr, fl, kc, s2, pw, wr⟩ := i
  cases s1 <;> cases cr <;> cases fl <;> cases kc <;> cases s2 <;> cases pw <;>
    simp [Run, mutexAcquire]

end ShpBuildRun
